import Mathlib

/-!
Shallow embedding of the transition-state visualiser core:
`app/pes.py`, `app/neb.py`, `app/sampling.py` and `app/__init__.py`.

Python floats are modelled as exact rationals.  The transcendental
operations of the `math` module (`math.exp`, `math.log`, `math.hypot`)
have no exact rational counterpart, so every definition that uses them
is parametrised by an `Ops` record providing them; the properties proved
below are independent of the actual values of these operations.  The
pseudo-random generator `random.Random` is modelled by an `RNG` record:
a state type, the seeding constructor and the `gauss` draw.  Fallible
Python code (index errors, unbound-name errors, configuration
validation) is modelled with `Option` and `Except`.
-/

/-- The transcendental float operations used by the source
(`math.exp`, `math.log`, `math.hypot`), kept abstract. -/
structure Ops where
  exp : ℚ → ℚ
  log : ℚ → ℚ
  hypot : ℚ → ℚ → ℚ

/-- A 2D point, the Python two-element list `[x, y]`. -/
abbrev Point : Type := ℚ × ℚ

/-- Model of `random.Random`: a generator state type, the seeding
constructor `random.Random(seed)`, and `gauss state mu sigma`, which
returns a draw together with the successor state. -/
structure RNG where
  State : Type
  init : ℕ → State
  gauss : State → ℚ → ℚ → ℚ × State

/-- `app/pes.py` dataclass `Gaussian`: one additive 2D isotropic
Gaussian feature of the potential energy surface. -/
structure Gaussian where
  amplitude : ℚ
  sigma : ℚ
  x0 : ℚ
  y0 : ℚ
  deriving DecidableEq

/-- `app/pes.py` dataclass `CircularState`: a circular metastable
region. -/
structure CircularState where
  x0 : ℚ
  y0 : ℚ
  radius : ℚ
  deriving DecidableEq

/-- `app/pes.py` dataclass `GridSpec`: description of the square
evaluation grid.  `resolution` is a Python `int`. -/
structure GridSpec where
  minimum : ℚ
  maximum : ℚ
  resolution : ℤ
  deriving DecidableEq

/-- The `"grid"` entry of the request payload: a mapping whose keys are
all optional.  A missing or empty Python dict is modelled as `none` at
the use site. -/
structure GridMapping where
  minimum : Option ℚ
  maximum : Option ℚ
  resolution : Option ℤ
  deriving DecidableEq

/-- A `"stateA"` / `"stateB"` entry of the request payload. -/
structure StateMapping where
  x0 : Option ℚ
  y0 : Option ℚ
  radius : Option ℚ
  deriving DecidableEq

/-- One entry of the `"gaussians"` list of the request payload. -/
structure GaussianMapping where
  amplitude : Option ℚ
  sigma : Option ℚ
  x0 : Option ℚ
  y0 : Option ℚ
  deriving DecidableEq

/-- The request payload consumed by `compute_visualisation`
(`app/__init__.py`).  `grid = none` models both a missing `"grid"` key
and an empty dict (both are falsy in `GridSpec.from_mapping`); missing
`"stateA"`/`"stateB"` keys default to the empty dict in the source and
are modelled as `none`. -/
structure Payload where
  grid : Option GridMapping
  gaussians : List GaussianMapping
  stateA : Option StateMapping
  stateB : Option StateMapping
  deriving DecidableEq

/-- The configuration errors raised by `app/pes.py` (`ValueError`).
The Python message texts are:
`State radius must be positive.` for `stateRadius` and
`Grid maximum must be greater than the minimum.` for `gridBounds`.
The two extra constructors stand for crashes of `compute_visualisation`
that are unreachable for its fixed hyperparameters (proved below). -/
inductive ConfigError where
  | stateRadius
  | gridBounds
  | nebUnreachable
  | samplingUnreachable
  deriving DecidableEq

/-- `Gaussian.from_mapping` (`app/pes.py`): defaults
`amplitude=0.0`, `sigma=1.0`, `x0=0.0`, `y0=0.0`; `sigma` is clamped
from below by `1e-6`. -/
def Gaussian.from_mapping (m : GaussianMapping) : Gaussian :=
  { amplitude := m.amplitude.getD 0
    sigma := max (m.sigma.getD 1) (1 / 1000000)
    x0 := m.x0.getD 0
    y0 := m.y0.getD 0 }

/-- `CircularState.from_mapping` (`app/pes.py`): default radius `1.0`;
raises when the radius is not positive. -/
def CircularState.from_mapping (m : StateMapping) : Except ConfigError CircularState :=
  let radius := m.radius.getD 1
  if radius ≤ 0 then Except.error ConfigError.stateRadius
  else Except.ok { x0 := m.x0.getD 0, y0 := m.y0.getD 0, radius := radius }

/-- `GridSpec.from_mapping` (`app/pes.py`): a falsy mapping yields the
default spec `(-4.0, 4.0, 60)`; otherwise defaults `minimum=-4.0`,
`maximum=4.0`, `resolution=60` are applied per missing key, the bounds
are validated, and the resolution is floored at 10. -/
def GridSpec.from_mapping (m : Option GridMapping) : Except ConfigError GridSpec :=
  match m with
  | none => Except.ok { minimum := -4, maximum := 4, resolution := 60 }
  | some m =>
    let minimum := m.minimum.getD (-4)
    let maximum := m.maximum.getD 4
    if maximum ≤ minimum then Except.error ConfigError.gridBounds
    else Except.ok { minimum := minimum, maximum := maximum,
                     resolution := max (m.resolution.getD 60) 10 }

/-- The `"gaussians"` list of `default_configuration()` (`app/pes.py`):
amplitudes 4.0 / -6.5 / 5.0, sigmas 1.2 / 0.8 / 1.0, centers
(-1.5, 0), (0, 0), (1.8, 0.6). -/
def default_gaussian_mappings : List GaussianMapping :=
  [ { amplitude := some 4, sigma := some (6 / 5), x0 := some (-(3 / 2)), y0 := some 0 },
    { amplitude := some (-(13 / 2)), sigma := some (4 / 5), x0 := some 0, y0 := some 0 },
    { amplitude := some 5, sigma := some 1, x0 := some (9 / 5), y0 := some (3 / 5) } ]

/-- The empty state mapping, the Python default `{}` used by
`payload.get("stateA", {})`. -/
def emptyStateMapping : StateMapping := { x0 := none, y0 := none, radius := none }

/-- `parse_configuration` (`app/pes.py`): parse the payload into typed
objects, substituting the built-in Gaussian features when the supplied
list is empty, and validating the grid bounds and the state radii. -/
def parse_configuration (p : Payload) :
    Except ConfigError (GridSpec × List Gaussian × CircularState × CircularState) :=
  match GridSpec.from_mapping p.grid with
  | Except.error e => Except.error e
  | Except.ok grid =>
    let gaussians :=
      if p.gaussians.isEmpty then default_gaussian_mappings.map Gaussian.from_mapping
      else p.gaussians.map Gaussian.from_mapping
    match CircularState.from_mapping (p.stateA.getD emptyStateMapping) with
    | Except.error e => Except.error e
    | Except.ok state_a =>
      match CircularState.from_mapping (p.stateB.getD emptyStateMapping) with
      | Except.error e => Except.error e
      | Except.ok state_b => Except.ok (grid, gaussians, state_a, state_b)

/-- `linspace` (`app/pes.py`): `num` evenly spaced samples from `start`
to `stop` inclusive; a single sample yields `[start]`. -/
def linspace (start stop : ℚ) (num : ℕ) : List ℚ :=
  if num = 1 then [start]
  else
    let step := (stop - start) / ((num : ℚ) - 1)
    (List.range num).map (fun (i : ℕ) => start + step * (i : ℚ))

/-- `create_grid` (`app/pes.py`): mesh arrays (x varies along columns,
y varies along rows) plus the two axis vectors. -/
def create_grid (spec : GridSpec) :
    List (List ℚ) × List (List ℚ) × List ℚ × List ℚ :=
  let n := spec.resolution.toNat
  let x_axis := linspace spec.minimum spec.maximum n
  let y_axis := linspace spec.minimum spec.maximum n
  let grid_x := (List.range n).map (fun _ => (List.range n).map (fun col => x_axis.getD col 0))
  let grid_y := (List.range n).map (fun row => (List.range n).map (fun _ => y_axis.getD row 0))
  (grid_x, grid_y, x_axis, y_axis)

/-- Entry `[row][col]` of a nested list; in-range Python indexing.
Out-of-range indices (which would raise `IndexError` in Python) return
`0`; all theorems below only use in-range indices. -/
def cellD (g : List (List ℚ)) (row col : ℕ) : ℚ := (g.getD row []).getD col 0

/-- The per-cell accumulation shared by `evaluate_potential` and
`evaluate_potential_at_point` (`app/pes.py`): starting from `0.0`, add
`amplitude * exp(-0.5 * r2 / sigma2)` for each feature in list order.
`evaluate_potential` iterates the features in its outer loop, so each
cell accumulates its terms in exactly this order; the point evaluator
runs the same loop on a single point. -/
def potCell (ops : Ops) (x y : ℚ) (gaussians : List Gaussian) : ℚ :=
  gaussians.foldl
    (fun value gaussian =>
      let sigma2 := gaussian.sigma * gaussian.sigma
      let dx := x - gaussian.x0
      let dy := y - gaussian.y0
      let r2 := dx * dx + dy * dy
      value + gaussian.amplitude * ops.exp (-(1 / 2) * r2 / sigma2))
    0

/-- `evaluate_potential` (`app/pes.py`): the gridded potential, with
`rows = len(grid_x)` and `cols = len(grid_x[0]) if rows else 0`. -/
def evaluate_potential (ops : Ops) (grid_x grid_y : List (List ℚ))
    (gaussians : List Gaussian) : List (List ℚ) :=
  let rows := grid_x.length
  let cols := (grid_x.getD 0 []).length
  (List.range rows).map (fun row =>
    (List.range cols).map (fun col =>
      potCell ops (cellD grid_x row col) (cellD grid_y row col) gaussians))

/-- `evaluate_potential_at_point` (`app/pes.py`). -/
def evaluate_potential_at_point (ops : Ops) (point : Point)
    (gaussians : List Gaussian) : ℚ :=
  potCell ops point.1 point.2 gaussians

/-- The per-cell accumulation shared by `gradient_potential` and
`evaluate_gradient_at_point` (`app/pes.py`): starting from `(0.0, 0.0)`,
add `(-dx * coeff, -dy * coeff)` with
`coeff = amplitude * exp(-0.5 * r2 / sigma2) / sigma2` for each feature
in list order. -/
def gradCell (ops : Ops) (x y : ℚ) (gaussians : List Gaussian) : ℚ × ℚ :=
  gaussians.foldl
    (fun acc gaussian =>
      let sigma2 := gaussian.sigma * gaussian.sigma
      let dx := x - gaussian.x0
      let dy := y - gaussian.y0
      let r2 := dx * dx + dy * dy
      let coeff := gaussian.amplitude * ops.exp (-(1 / 2) * r2 / sigma2) / sigma2
      (acc.1 + -dx * coeff, acc.2 + -dy * coeff))
    (0, 0)

/-- `gradient_potential` (`app/pes.py`): the two gridded gradient
component arrays. -/
def gradient_potential (ops : Ops) (grid_x grid_y : List (List ℚ))
    (gaussians : List Gaussian) : List (List ℚ) × List (List ℚ) :=
  let rows := grid_x.length
  let cols := (grid_x.getD 0 []).length
  ((List.range rows).map (fun row =>
      (List.range cols).map (fun col =>
        (gradCell ops (cellD grid_x row col) (cellD grid_y row col) gaussians).1)),
   (List.range rows).map (fun row =>
      (List.range cols).map (fun col =>
        (gradCell ops (cellD grid_x row col) (cellD grid_y row col) gaussians).2)))

/-- `evaluate_gradient_at_point` (`app/pes.py`). -/
def evaluate_gradient_at_point (ops : Ops) (point : Point)
    (gaussians : List Gaussian) : Point :=
  gradCell ops point.1 point.2 gaussians

/-- `transition_state_boundary` (`app/pes.py`): every grid point whose
potential lies within `tolerance` of `transition_energy`, scanned in
row-major order. -/
def transition_state_boundary (grid_x grid_y potential : List (List ℚ))
    (transition_energy tolerance : ℚ) : List Point :=
  let rows := grid_x.length
  let cols := (grid_x.getD 0 []).length
  ((List.range rows).map (fun row =>
    (List.range cols).filterMap (fun col =>
      if |cellD potential row col - transition_energy| ≤ tolerance then
        some (cellD grid_x row col, cellD grid_y row col)
      else none))).flatten

/-- `grid_min_max` (`app/pes.py`): minimum and maximum over a 2D array;
`(0.0, 0.0)` for an empty array.  The Python fold starts from plus and
minus float infinity; over a nonempty flattened array it computes the
ordinary minimum and maximum. -/
def grid_min_max (values : List (List ℚ)) : ℚ × ℚ :=
  match values.flatten with
  | [] => (0, 0)
  | v :: rest => (rest.foldl min v, rest.foldl max v)


/-- Row-major list of all `(row, col)` index pairs of a `rows × cols`
grid, the iteration order of the nested loops of
`_state_entry_point` (`app/__init__.py`). -/
def cellIndices (rows cols : ℕ) : List (ℕ × ℕ) :=
  ((List.range rows).map (fun row => (List.range cols).map (fun col => (row, col)))).flatten

/-- One scan step of `_state_entry_point` (`app/__init__.py`).  Python
keeps a running `best_point` / `best_energy` with `best_energy` starting
at float infinity; the not-yet-hit infinity is modelled as `none`.  A
cell strictly improving the best energy replaces it. -/
def entryStep (grid_x grid_y potential : List (List ℚ)) (state : CircularState)
    (acc : Point × Option ℚ) (rc : ℕ × ℕ) : Point × Option ℚ :=
  let x := cellD grid_x rc.1 rc.2
  let y := cellD grid_y rc.1 rc.2
  if (x - state.x0) ^ 2 + (y - state.y0) ^ 2 ≤ state.radius ^ 2 then
    let e := cellD potential rc.1 rc.2
    match acc.2 with
    | none => ((x, y), some e)
    | some best => if e < best then ((x, y), some e) else acc
  else acc

/-- `_state_entry_point` (`app/__init__.py`): scan all grid cells in
row-major order, keeping the in-circle cell of lowest potential;
fall back to the nominal state center when no cell is inside. -/
def state_entry_point (grid_x grid_y potential : List (List ℚ))
    (state : CircularState) : Point :=
  let rows := grid_x.length
  let cols := (grid_x.getD 0 []).length
  ((cellIndices rows cols).foldl (entryStep grid_x grid_y potential state)
    ((state.x0, state.y0), none)).1

/-- Whether the grid cell `(rc.1, rc.2)` lies inside the circular
region of `state`, exactly the membership test of
`_state_entry_point` and `state_masks`. -/
def inCircle (grid_x grid_y : List (List ℚ)) (state : CircularState) (rc : ℕ × ℕ) : Prop :=
  (cellD grid_x rc.1 rc.2 - state.x0) ^ 2 + (cellD grid_y rc.1 rc.2 - state.y0) ^ 2
    ≤ state.radius ^ 2

instance (grid_x grid_y : List (List ℚ)) (state : CircularState) (rc : ℕ × ℕ) :
    Decidable (inCircle grid_x grid_y state rc) := by
  unfold inCircle
  infer_instance

/-- `max(range(len(values)), key=lambda i: values[i])` as used by
`compute_visualisation` to locate the transition state: the index of
the maximum value, resolving ties to the first such index (Python `max`
only replaces the current best on a strictly greater key). -/
def argmaxIdx (values : List ℚ) : ℕ :=
  (List.range values.length).foldl
    (fun best i => if values.getD best 0 < values.getD i 0 then i else best) 0

/-- `app/neb.py` dataclass `NEBResult`. -/
structure NEBResult where
  path : List Point
  energies : List ℚ
  gradients : List Point
  iterations : ℕ
  max_force : ℚ
  deriving DecidableEq

/-- The linear-interpolation initialisation of the NEB images
(`app/neb.py`, lines 33-39): image `index` sits at parameter
`t = index / (n_images - 1)`. -/
def initImages (start endp : Point) (n_images : ℕ) : List Point :=
  (List.range n_images).map (fun (index : ℕ) =>
    let t : ℚ := (index : ℚ) / ((n_images : ℚ) - 1)
    (start.1 * (1 - t) + endp.1 * t, start.2 * (1 - t) + endp.2 * t))

/-- The total NEB force on internal image `idx` (`app/neb.py`,
lines 46-65): normalized tangent from image `idx-1` to image `idx+1`
(zero vector when degenerate), perpendicular component of the true
gradient, and the spring force along the tangent. -/
def totalForce (ops : Ops) (gradient : Point → Point) (k_spring : ℚ)
    (images : List Point) (idx : ℕ) : Point :=
  let prev_image := images.getD (idx - 1) (0, 0)
  let cur_image := images.getD idx (0, 0)
  let next_image := images.getD (idx + 1) (0, 0)
  let t0 : Point := (next_image.1 - prev_image.1, next_image.2 - prev_image.2)
  let tangent_norm := ops.hypot t0.1 t0.2
  let tangent : Point :=
    if tangent_norm = 0 then (0, 0) else (t0.1 / tangent_norm, t0.2 / tangent_norm)
  let grad := gradient cur_image
  let grad_parallel_scalar := grad.1 * tangent.1 + grad.2 * tangent.2
  let grad_parallel : Point :=
    (grad_parallel_scalar * tangent.1, grad_parallel_scalar * tangent.2)
  let grad_perp : Point := (grad.1 - grad_parallel.1, grad.2 - grad_parallel.2)
  let dist_forward := ops.hypot (next_image.1 - cur_image.1) (next_image.2 - cur_image.2)
  let dist_backward := ops.hypot (cur_image.1 - prev_image.1) (cur_image.2 - prev_image.2)
  let spring_force_mag := k_spring * (dist_forward - dist_backward)
  let spring_force : Point := (spring_force_mag * tangent.1, spring_force_mag * tangent.2)
  (-grad_perp.1 + spring_force.1, -grad_perp.2 + spring_force.2)

/-- The per-iteration maximum force norm over the internal images
`1 .. n_images - 2` (`app/neb.py`, lines 44-67), starting from `0.0`. -/
def maxForce (ops : Ops) (gradient : Point → Point) (k_spring : ℚ)
    (images : List Point) : ℚ :=
  (List.range' 1 (images.length - 2)).foldl
    (fun acc idx =>
      let f := totalForce ops gradient k_spring images idx
      max acc (ops.hypot f.1 f.2))
    0

/-- The position update of one NEB iteration (`app/neb.py`,
lines 72-74): every internal image moves by `step_size` times its total
force; the forces of all internal images are computed from the
pre-update positions (the source computes them all before updating). -/
def updateImages (ops : Ops) (gradient : Point → Point) (k_spring step_size : ℚ)
    (images : List Point) : List Point :=
  (List.range images.length).map (fun idx =>
    let p := images.getD idx (0, 0)
    if 1 ≤ idx ∧ idx + 1 < images.length then
      let f := totalForce ops gradient k_spring images idx
      (p.1 + step_size * f.1, p.2 + step_size * f.2)
    else p)

/-- The main loop of `run_neb` (`app/neb.py`, lines 43-74), with `fuel`
the remaining iteration budget.  Returns the final images, the number
of iterations actually executed (Python reports `iteration + 1`), and
the last computed max force norm.  An iteration first computes all
internal forces and the max force norm; if that norm is below the
tolerance the loop stops without moving any image. -/
def nebLoop (ops : Ops) (gradient : Point → Point)
    (k_spring step_size force_tolerance : ℚ) :
    List Point → ℕ → List Point × ℕ × ℚ
  | images, 0 => (images, 0, 0)
  | images, fuel + 1 =>
    let mf := maxForce ops gradient k_spring images
    if mf < force_tolerance then (images, 1, mf)
    else
      let updated := updateImages ops gradient k_spring step_size images
      match fuel with
      | 0 => (updated, 1, mf)
      | f + 1 =>
        let r := nebLoop ops gradient k_spring step_size force_tolerance updated (f + 1)
        (r.1, r.2.1 + 1, r.2.2)

/-- `run_neb` (`app/neb.py`).  Two argument combinations make the
Python function raise instead of returning, modelled as `none`:
`n_images = 1` (ZeroDivisionError in `index / (n_images - 1)` during
initialisation) and `max_iter = 0` (the `for` body never runs, so
`iteration + 1` raises NameError at the return statement).  Negative
Python ints for these two parameters behave like `0`; both are
modelled as `ℕ`.  Final energies and gradients are recomputed from the
final path. -/
def run_neb (ops : Ops) (potential : Point → ℚ) (gradient : Point → Point)
    (start endp : Point) (n_images : ℕ) (k_spring step_size : ℚ)
    (max_iter : ℕ) (force_tolerance : ℚ) : Option NEBResult :=
  if n_images = 1 then none
  else if max_iter = 0 then none
  else
    let images := initImages start endp n_images
    let r := nebLoop ops gradient k_spring step_size force_tolerance images max_iter
    some { path := r.1
           energies := r.1.map potential
           gradients := r.1.map gradient
           iterations := r.2.1
           max_force := r.2.2 }

/-- `app/sampling.py`: one drawn sample record
`{"x": ..., "y": ..., "potential": ..., "bias": ...}`. -/
structure Sample where
  x : ℚ
  y : ℚ
  potential : ℚ
  bias : ℚ
  deriving DecidableEq

/-- `app/sampling.py` dataclass `UmbrellaWindow`.  `free_energy` is a
Python float that is set to `float("nan")` when the window's partition
function vanishes; the not-a-number outcome is modelled as `none`. -/
structure UmbrellaWindow where
  center_index : ℕ
  reaction_coordinate : ℚ
  free_energy : Option ℚ
  samples : List Sample
  deriving DecidableEq

/-- `_estimate_tangent` (`app/sampling.py`): one-sided difference at the
two path ends, central difference inside, normalized, with the unit
vector along the first axis as degenerate fallback.  `none` models an
IndexError: for a single-image path the `idx == 0` branch reads
`path[1]`, which does not exist.  (The negative Python indices of the
`idx == len(path) - 1` branch resolve to `len - 1` and `len - 2`; that
branch is only reached when `idx` is distinct from `0`, hence when the
path has at least two images, so they are in range there.) -/
def estimate_tangent (ops : Ops) (path : List Point) (idx : ℕ) : Option Point :=
  let normalized := fun (t : Point) =>
    let norm := ops.hypot t.1 t.2
    if norm = 0 then some ((1 : ℚ), (0 : ℚ)) else some (t.1 / norm, t.2 / norm)
  if idx = 0 then
    match path.get? 1, path.get? 0 with
    | some p1, some p0 => normalized (p1.1 - p0.1, p1.2 - p0.2)
    | _, _ => none
  else if idx = path.length - 1 then
    match path.get? (path.length - 1), path.get? (path.length - 2) with
    | some plast, some pprev => normalized (plast.1 - pprev.1, plast.2 - pprev.2)
    | _, _ => none
  else
    match path.get? (idx + 1), path.get? (idx - 1) with
    | some pnext, some pprev => normalized (pnext.1 - pprev.1, pnext.2 - pprev.2)
    | _, _ => none

/-- One stochastic draw of `umbrella_sampling` (`app/sampling.py`,
lines 44-65): two Gaussian displacements (along the tangent with
standard deviation `window_half_width / 2`, along the perpendicular
with `window_half_width`), the sample record, its Boltzmann weight and
its potential energy, threading the generator state. -/
def sampleOne (ops : Ops) (R : RNG) (potential : Point → ℚ)
    (point tangent perp : Point) (beta spring_constant window_half_width : ℚ)
    (st : R.State) : Sample × ℚ × ℚ × R.State :=
  let d1 := R.gauss st 0 (window_half_width / 2)
  let d2 := R.gauss d1.2 0 window_half_width
  let displacement_along := d1.1
  let displacement_perp := d2.1
  let sample_point : Point :=
    (point.1 + displacement_along * tangent.1 + displacement_perp * perp.1,
     point.2 + displacement_along * tangent.2 + displacement_perp * perp.2)
  let potential_energy := potential sample_point
  let dx := sample_point.1 - point.1
  let dy := sample_point.2 - point.2
  let bias_energy := 1 / 2 * spring_constant * (dx * dx + dy * dy)
  let weight := ops.exp (-(beta * (potential_energy + bias_energy)))
  ({ x := sample_point.1, y := sample_point.2,
     potential := potential_energy, bias := bias_energy },
   weight, potential_energy, d2.2)

/-- The sampling loop of one umbrella window (`app/sampling.py`,
lines 41-65): `samples_per_window` draws, returning the samples, the
weights, the energies and the final generator state, all in draw
order. -/
def sampleMany (ops : Ops) (R : RNG) (potential : Point → ℚ)
    (point tangent perp : Point) (beta spring_constant window_half_width : ℚ) :
    ℕ → R.State → List Sample × List ℚ × List ℚ × R.State
  | 0, st => ([], [], [], st)
  | n + 1, st =>
    let one := sampleOne ops R potential point tangent perp beta spring_constant
      window_half_width st
    let rest := sampleMany ops R potential point tangent perp beta spring_constant
      window_half_width n one.2.2.2
    (one.1 :: rest.1, one.2.1 :: rest.2.1, one.2.2.1 :: rest.2.2.1, rest.2.2.2)

/-- The free-energy estimate of one umbrella window (`app/sampling.py`,
lines 67-74): `none` (Python `float("nan")`) when the partition
function `sum(weights)` is exactly zero, otherwise the clamped
single-window reweighting estimate. -/
def windowFreeEnergy (ops : Ops) (beta : ℚ) (weights energies : List ℚ) : Option ℚ :=
  let partition := weights.sum
  if partition = 0 then none
  else
    let expectation :=
      (List.zipWith (fun w e => w * ops.exp (-(beta * e))) weights energies).sum / partition
    some (-(ops.log (max expectation (1 / 1000000000000))) / beta)

/-- The body of one window of `umbrella_sampling` (`app/sampling.py`,
lines 32-84, given the already-computed tangent): the perpendicular
direction (90-degree rotation of the tangent, unit vector along the
second axis when degenerate), the `samples_per_window` draws, the
free-energy estimate and the reaction coordinate
`idx / (len(path) - 1)` (`0.0` for a single-image path).  Returns the
window together with the generator state after its draws. -/
def mkWindow (ops : Ops) (R : RNG) (potential : Point → ℚ) (path : List Point)
    (beta spring_constant window_half_width : ℚ) (samples_per_window : ℕ)
    (idx : ℕ) (tangent : Point) (st : R.State) : UmbrellaWindow × R.State :=
  let point := path.getD idx (0, 0)
  let perp0 : Point := (-tangent.2, tangent.1)
  let perp_norm := ops.hypot perp0.1 perp0.2
  let perp : Point :=
    if perp_norm = 0 then ((0 : ℚ), (1 : ℚ)) else (perp0.1 / perp_norm, perp0.2 / perp_norm)
  let drawn := sampleMany ops R potential point tangent perp beta spring_constant
    window_half_width samples_per_window st
  let free_energy := windowFreeEnergy ops beta drawn.2.1 drawn.2.2.1
  let reaction_coordinate :=
    if 1 < path.length then (idx : ℚ) / ((path.length : ℚ) - 1) else 0
  ({ center_index := idx, reaction_coordinate := reaction_coordinate,
     free_energy := free_energy, samples := drawn.1 }, drawn.2.2.2)

/-- The window loop of `umbrella_sampling` (`app/sampling.py`,
lines 32-84) over a list of window indices, threading the generator
state from window to window through `mkWindow`.  `none` propagates an
IndexError raised by `_estimate_tangent`. -/
def windowsFrom (ops : Ops) (R : RNG) (potential : Point → ℚ) (path : List Point)
    (beta spring_constant window_half_width : ℚ) (samples_per_window : ℕ) :
    List ℕ → R.State → Option (List UmbrellaWindow)
  | [], _ => some []
  | idx :: rest, st =>
    match estimate_tangent ops path idx with
    | none => none
    | some tangent =>
      match windowsFrom ops R potential path beta spring_constant window_half_width
        samples_per_window rest
        (mkWindow ops R potential path beta spring_constant window_half_width
          samples_per_window idx tangent st).2 with
      | none => none
      | some ws =>
        some ((mkWindow ops R potential path beta spring_constant window_half_width
          samples_per_window idx tangent st).1 :: ws)

/-- `umbrella_sampling` (`app/sampling.py`).  The `ambient` argument is
the generator state the calling process happens to carry; the source
constructs its own `random.Random(42)` on every call, so the ambient
state is never consulted — that fact is the content of the determinism
claim proved below. -/
def umbrella_sampling (ops : Ops) (R : RNG) (ambient : R.State)
    (potential : Point → ℚ) (path : List Point)
    (beta spring_constant window_half_width : ℚ) (samples_per_window : ℕ) :
    Option (List UmbrellaWindow) :=
  windowsFrom ops R potential path beta spring_constant window_half_width
    samples_per_window (List.range path.length) (R.init 42)

/-- The partition function of an umbrella window, recomputed from its
stored samples: each sample's Boltzmann weight is
`exp(-beta * (potential + bias))`, exactly the weight the source pushed
onto its `weights` list for that sample (proved below). -/
def partitionOf (ops : Ops) (beta : ℚ) (w : UmbrellaWindow) : ℚ :=
  (w.samples.map (fun s => ops.exp (-(beta * (s.potential + s.bias))))).sum

/-- The `"grid"` part of the response record of
`compute_visualisation`. -/
structure GridOut where
  x : List ℚ
  y : List ℚ
  z : List (List ℚ)
  zMin : ℚ
  zMax : ℚ

/-- A `"states"` entry of the response record. -/
structure StateOut where
  x0 : ℚ
  y0 : ℚ
  radius : ℚ

/-- A `"path"` entry of the response record. -/
structure PathPoint where
  x : ℚ
  y : ℚ
  z : ℚ

/-- The `"transitionState"` part of the response record. -/
structure TransitionOut where
  index : ℕ
  x : ℚ
  y : ℚ
  energy : ℚ

/-- The response record of `compute_visualisation`
(`app/__init__.py`, lines 59-103). -/
structure Response where
  grid : GridOut
  stateA : StateOut
  stateB : StateOut
  path : List PathPoint
  transitionState : TransitionOut
  boundary : List Point
  umbrella : List UmbrellaWindow
  meta_nebIterations : ℕ
  meta_nebMaxForce : ℚ

/-- `compute_visualisation` (`app/__init__.py`): the full pipeline.
The two `Except.error` branches for the NEB and sampling calls model
Python crashes that cannot occur for the fixed hyperparameters used
here (`n_images = 18` is distinct from 1, `max_iter = 600` is nonzero,
and the NEB path has 18 ≠ 1 images); configuration errors from
`parse_configuration` propagate unchanged, before any numerical
work. -/
def compute_visualisation (ops : Ops) (R : RNG) (ambient : R.State)
    (payload : Payload) : Except ConfigError Response :=
  match parse_configuration payload with
  | Except.error e => Except.error e
  | Except.ok (grid_spec, gaussians, state_a, state_b) =>
    let g := create_grid grid_spec
    let grid_x := g.1
    let grid_y := g.2.1
    let x_axis := g.2.2.1
    let y_axis := g.2.2.2
    let potential_values := evaluate_potential ops grid_x grid_y gaussians
    let potential := fun (point : Point) => evaluate_potential_at_point ops point gaussians
    let gradient := fun (point : Point) => evaluate_gradient_at_point ops point gaussians
    let start := state_entry_point grid_x grid_y potential_values state_a
    let endp := state_entry_point grid_x grid_y potential_values state_b
    match run_neb ops potential gradient start endp 18 (5 / 2) (3 / 100) 600 (1 / 2000) with
    | none => Except.error ConfigError.nebUnreachable
    | some neb_result =>
      let transition_idx := argmaxIdx neb_result.energies
      let transition_point := neb_result.path.getD transition_idx (0, 0)
      let transition_energy := neb_result.energies.getD transition_idx 0
      let boundary_points := transition_state_boundary grid_x grid_y potential_values
        transition_energy (3 / 20)
      match umbrella_sampling ops R ambient potential neb_result.path 1 5 (1 / 2) 120 with
      | none => Except.error ConfigError.samplingUnreachable
      | some umbrellas =>
        let mm := grid_min_max potential_values
        Except.ok
          { grid := { x := x_axis, y := y_axis, z := potential_values,
                      zMin := mm.1, zMax := mm.2 }
            stateA := { x0 := state_a.x0, y0 := state_a.y0, radius := state_a.radius }
            stateB := { x0 := state_b.x0, y0 := state_b.y0, radius := state_b.radius }
            path := List.zipWith (fun (point : Point) energy =>
              { x := point.1, y := point.2, z := energy }) neb_result.path neb_result.energies
            transitionState := { index := transition_idx, x := transition_point.1,
                                 y := transition_point.2, energy := transition_energy }
            boundary := boundary_points
            umbrella := umbrellas
            meta_nebIterations := neb_result.iterations
            meta_nebMaxForce := neb_result.max_force }

/-- Concrete stand-in for `Ops` used to instantiate the theorems below
on concrete inputs. -/
def opsDemo : Ops := { exp := fun _ => 1, log := fun _ => 0, hypot := fun _ _ => 0 }

/-- Concrete stand-in for `RNG`: the state counts the draws, every draw
is zero. -/
def rngDemo : RNG := { State := ℕ, init := fun s => s, gauss := fun st _ _ => (0, st + 1) }

/-- Concrete flat potential for instantiations. -/
def potDemo : Point → ℚ := fun _ => 0

/-- Concrete zero gradient for instantiations. -/
def gradDemo : Point → Point := fun _ => (0, 0)

/-- Concrete two-image path for instantiations. -/
def pathDemo : List Point := [(0, 0), (1, 0)]

/-- Ambient generator states of `rngDemo` for instantiations. -/
def rngDemoState (n : ℕ) : rngDemo.State := n

/-- The umbrella windows computed on `pathDemo` with one sample per
window. -/
def wsDemo : List UmbrellaWindow :=
  (umbrella_sampling opsDemo rngDemo (rngDemoState 0) potDemo pathDemo 1 5 (1 / 2) 1).getD []

/-- Fallback umbrella window for list indexing in instantiations. -/
def windowDemo : UmbrellaWindow :=
  { center_index := 0, reaction_coordinate := 0, free_energy := none, samples := [] }

/-- A concrete NEB run with two images and three allowed iterations. -/
def nebDemo : NEBResult :=
  (run_neb opsDemo potDemo gradDemo (0, 0) (1, 0) 2 1 (1 / 50) 3 1).getD
    { path := [], energies := [], gradients := [], iterations := 0, max_force := 0 }

/-- A fully defaulted, valid payload. -/
def payloadDemo : Payload := { grid := none, gaussians := [], stateA := none, stateB := none }

/-- A payload whose first state carries a non-positive radius. -/
def payloadBad : Payload :=
  { grid := none, gaussians := [],
    stateA := some { x0 := some 0, y0 := some 0, radius := some (-1) },
    stateB := none }

/-- Concrete 2 × 2 x-mesh for instantiations. -/
def gxDemo : List (List ℚ) := [[0, 1], [0, 1]]

/-- Concrete 2 × 2 y-mesh for instantiations. -/
def gyDemo : List (List ℚ) := [[0, 0], [1, 1]]

/-- Concrete 2 × 2 potential grid for instantiations. -/
def pvDemo : List (List ℚ) := [[5, 2], [3, 4]]

/-- A circular state far away from every cell of the demo grid. -/
def stFarDemo : CircularState := { x0 := 100, y0 := 100, radius := 1 }

/-- Concrete one-feature Gaussian list for instantiations. -/
def gsDemo : List Gaussian := [{ amplitude := 1, sigma := 1, x0 := 0, y0 := 0 }]

theorem getD_range_map {α : Type} (f : ℕ → α) (d : α) {n i : ℕ} (h : i < n) :
    ((List.range n).map f).getD i d = f i := by
  rw [List.getD_eq_getElem?_getD]
  simp [List.getElem?_map, List.getElem?_range, h]

theorem updateImages_length (ops : Ops) (gradient : Point → Point) (k_spring step_size : ℚ)
    (images : List Point) :
    (updateImages ops gradient k_spring step_size images).length = images.length := by
  simp [updateImages]

theorem updateImages_getD_first (ops : Ops) (gradient : Point → Point)
    (k_spring step_size : ℚ) (images : List Point) (h : 0 < images.length) :
    (updateImages ops gradient k_spring step_size images).getD 0 (0, 0)
      = images.getD 0 (0, 0) := by
  rw [updateImages, getD_range_map _ _ h]
  simp

theorem updateImages_getD_last (ops : Ops) (gradient : Point → Point)
    (k_spring step_size : ℚ) (images : List Point) (h : 2 ≤ images.length) :
    (updateImages ops gradient k_spring step_size images).getD (images.length - 1) (0, 0)
      = images.getD (images.length - 1) (0, 0) := by
  have h1 : images.length - 1 < images.length := by omega
  rw [updateImages, getD_range_map _ _ h1]
  have h2 : ¬ (1 ≤ images.length - 1 ∧ images.length - 1 + 1 < images.length) := by omega
  simp [h2]

theorem nebLoop_converged (ops : Ops) (gradient : Point → Point)
    (k_spring step_size force_tolerance : ℚ) (images : List Point) (fuel : ℕ)
    (h : maxForce ops gradient k_spring images < force_tolerance) :
    nebLoop ops gradient k_spring step_size force_tolerance images (fuel + 1)
      = (images, 1, maxForce ops gradient k_spring images) := by
  cases fuel <;> simp [nebLoop, h]

theorem nebLoop_last (ops : Ops) (gradient : Point → Point)
    (k_spring step_size force_tolerance : ℚ) (images : List Point)
    (h : ¬ maxForce ops gradient k_spring images < force_tolerance) :
    nebLoop ops gradient k_spring step_size force_tolerance images 1
      = (updateImages ops gradient k_spring step_size images, 1,
         maxForce ops gradient k_spring images) := by
  simp [nebLoop, h]

theorem nebLoop_step (ops : Ops) (gradient : Point → Point)
    (k_spring step_size force_tolerance : ℚ) (images : List Point) (fuel : ℕ)
    (h : ¬ maxForce ops gradient k_spring images < force_tolerance) :
    nebLoop ops gradient k_spring step_size force_tolerance images (fuel + 2)
      = ((nebLoop ops gradient k_spring step_size force_tolerance
            (updateImages ops gradient k_spring step_size images) (fuel + 1)).1,
         (nebLoop ops gradient k_spring step_size force_tolerance
            (updateImages ops gradient k_spring step_size images) (fuel + 1)).2.1 + 1,
         (nebLoop ops gradient k_spring step_size force_tolerance
            (updateImages ops gradient k_spring step_size images) (fuel + 1)).2.2) := by
  conv_lhs => rw [nebLoop]
  simp [h]

theorem nebLoop_length (ops : Ops) (gradient : Point → Point)
    (k_spring step_size force_tolerance : ℚ) :
    ∀ (fuel : ℕ) (images : List Point),
      (nebLoop ops gradient k_spring step_size force_tolerance images fuel).1.length
        = images.length := by
  intro fuel
  induction fuel with
  | zero => intro images; rfl
  | succ n ih =>
    intro images
    by_cases hc : maxForce ops gradient k_spring images < force_tolerance
    · rw [nebLoop_converged _ _ _ _ _ _ _ hc]
    · cases n with
      | zero =>
        rw [nebLoop_last _ _ _ _ _ _ hc]
        exact updateImages_length _ _ _ _ _
      | succ m =>
        rw [nebLoop_step _ _ _ _ _ _ _ hc]
        rw [ih (updateImages ops gradient k_spring step_size images)]
        exact updateImages_length _ _ _ _ _

theorem nebLoop_endpoints (ops : Ops) (gradient : Point → Point)
    (k_spring step_size force_tolerance : ℚ) :
    ∀ (fuel : ℕ) (images : List Point), 2 ≤ images.length →
      (nebLoop ops gradient k_spring step_size force_tolerance images fuel).1.getD 0 (0, 0)
          = images.getD 0 (0, 0) ∧
      (nebLoop ops gradient k_spring step_size force_tolerance images fuel).1.getD
            (images.length - 1) (0, 0)
          = images.getD (images.length - 1) (0, 0) := by
  intro fuel
  induction fuel with
  | zero => intro images _; exact ⟨rfl, rfl⟩
  | succ n ih =>
    intro images h2
    by_cases hc : maxForce ops gradient k_spring images < force_tolerance
    · rw [nebLoop_converged _ _ _ _ _ _ _ hc]
      exact ⟨rfl, rfl⟩
    · cases n with
      | zero =>
        rw [nebLoop_last _ _ _ _ _ _ hc]
        exact ⟨updateImages_getD_first _ _ _ _ _ (by omega),
               updateImages_getD_last _ _ _ _ _ h2⟩
      | succ m =>
        rw [nebLoop_step _ _ _ _ _ _ _ hc]
        have hlen := updateImages_length ops gradient k_spring step_size images
        have h2b : 2 ≤ (updateImages ops gradient k_spring step_size images).length := by
          omega
        have hih := ih (updateImages ops gradient k_spring step_size images) h2b
        constructor
        · rw [hih.1]
          exact updateImages_getD_first _ _ _ _ _ (by omega)
        · rw [hlen] at hih
          rw [hih.2]
          exact updateImages_getD_last _ _ _ _ _ h2

theorem nebLoop_count (ops : Ops) (gradient : Point → Point)
    (k_spring step_size force_tolerance : ℚ) :
    ∀ (fuel : ℕ) (images : List Point),
      (nebLoop ops gradient k_spring step_size force_tolerance images fuel).2.1 ≤ fuel ∧
      ((nebLoop ops gradient k_spring step_size force_tolerance images fuel).2.1 < fuel →
        (nebLoop ops gradient k_spring step_size force_tolerance images fuel).2.2
          < force_tolerance) := by
  intro fuel
  induction fuel with
  | zero => intro images; exact ⟨Nat.le_refl 0, fun h => absurd h (Nat.lt_irrefl 0)⟩
  | succ n ih =>
    intro images
    by_cases hc : maxForce ops gradient k_spring images < force_tolerance
    · rw [nebLoop_converged _ _ _ _ _ _ _ hc]
      refine ⟨?_, fun _ => hc⟩
      show 1 ≤ n + 1
      omega
    · cases n with
      | zero =>
        rw [nebLoop_last _ _ _ _ _ _ hc]
        refine ⟨Nat.le_refl 1, fun h => ?_⟩
        have h2 : (1 : ℕ) < 1 := h
        omega
      | succ m =>
        rw [nebLoop_step _ _ _ _ _ _ _ hc]
        have hih := ih (updateImages ops gradient k_spring step_size images)
        have h1 := hih.1
        refine ⟨?_, fun h => ?_⟩
        · show (nebLoop ops gradient k_spring step_size force_tolerance
              (updateImages ops gradient k_spring step_size images) (m + 1)).2.1 + 1
            ≤ m + 1 + 1
          omega
        · have h2 : (nebLoop ops gradient k_spring step_size force_tolerance
              (updateImages ops gradient k_spring step_size images) (m + 1)).2.1 + 1
              < m + 1 + 1 := h
          exact hih.2 (by omega)

theorem initImages_length (start endp : Point) (n_images : ℕ) :
    (initImages start endp n_images).length = n_images := by
  simp [initImages]

theorem initImages_first (start endp : Point) {n_images : ℕ} (h : 0 < n_images) :
    (initImages start endp n_images).getD 0 (0, 0) = start := by
  rw [initImages, getD_range_map _ _ h]
  simp

theorem initImages_last (start endp : Point) {n_images : ℕ} (h : 2 ≤ n_images) :
    (initImages start endp n_images).getD (n_images - 1) (0, 0) = endp := by
  have h1 : n_images - 1 < n_images := by omega
  rw [initImages, getD_range_map _ _ h1]
  have hc : ((n_images - 1 : ℕ) : ℚ) = (n_images : ℚ) - 1 := by
    push_cast [Nat.cast_sub (by omega : 1 ≤ n_images)]
    ring
  have hge : (2 : ℚ) ≤ (n_images : ℚ) := by exact_mod_cast h
  have hne : (n_images : ℚ) - 1 ≠ 0 := by linarith
  simp only [hc, div_self hne]
  simp

/-- C1: in `run_neb`, the convergence check precedes the position
update.  A converging iteration returns the incoming images unchanged
(the path from the previous iteration) and counts as one executed
iteration; a non-converging iteration moves the internal images and
adds exactly one to the executed-iteration count; and the result
reported by `run_neb` is exactly the loop's final images together with
its executed-iteration count and last max force norm. -/
theorem claim_C1_convergence_before_update
    (ops : Ops) (potential : Point → ℚ) (gradient : Point → Point)
    (start endp : Point) (n_images : ℕ) (k_spring step_size : ℚ)
    (max_iter : ℕ) (force_tolerance : ℚ) (images : List Point) (fuel : ℕ) :
    (maxForce ops gradient k_spring images < force_tolerance →
      nebLoop ops gradient k_spring step_size force_tolerance images (fuel + 1)
        = (images, 1, maxForce ops gradient k_spring images)) ∧
    (¬ maxForce ops gradient k_spring images < force_tolerance →
      nebLoop ops gradient k_spring step_size force_tolerance images 1
        = (updateImages ops gradient k_spring step_size images, 1,
           maxForce ops gradient k_spring images)) ∧
    (¬ maxForce ops gradient k_spring images < force_tolerance →
      nebLoop ops gradient k_spring step_size force_tolerance images (fuel + 2)
        = ((nebLoop ops gradient k_spring step_size force_tolerance
              (updateImages ops gradient k_spring step_size images) (fuel + 1)).1,
           (nebLoop ops gradient k_spring step_size force_tolerance
              (updateImages ops gradient k_spring step_size images) (fuel + 1)).2.1 + 1,
           (nebLoop ops gradient k_spring step_size force_tolerance
              (updateImages ops gradient k_spring step_size images) (fuel + 1)).2.2)) ∧
    (n_images ≠ 1 → max_iter ≠ 0 →
      run_neb ops potential gradient start endp n_images k_spring step_size max_iter
          force_tolerance
        = some { path := (nebLoop ops gradient k_spring step_size force_tolerance
                    (initImages start endp n_images) max_iter).1
                 energies := ((nebLoop ops gradient k_spring step_size force_tolerance
                    (initImages start endp n_images) max_iter).1).map potential
                 gradients := ((nebLoop ops gradient k_spring step_size force_tolerance
                    (initImages start endp n_images) max_iter).1).map gradient
                 iterations := (nebLoop ops gradient k_spring step_size force_tolerance
                    (initImages start endp n_images) max_iter).2.1
                 max_force := (nebLoop ops gradient k_spring step_size force_tolerance
                    (initImages start endp n_images) max_iter).2.2 }) := by
  refine ⟨nebLoop_converged ops gradient k_spring step_size force_tolerance images fuel,
          nebLoop_last ops gradient k_spring step_size force_tolerance images,
          nebLoop_step ops gradient k_spring step_size force_tolerance images fuel, ?_⟩
  intro h1 h2
  simp [run_neb, h1, h2]

/-- Witness for C1 at a concrete converged configuration. -/
theorem claim_C1_witness :
    nebLoop opsDemo gradDemo 1 (1 / 50) 1 pathDemo 1
      = (pathDemo, 1, maxForce opsDemo gradDemo 1 pathDemo) :=
  (claim_C1_convergence_before_update opsDemo potDemo gradDemo (0, 0) (1, 0) 2 1 (1 / 50) 3 1
    pathDemo 0).1 (by decide)

/-- C2 (amended): for `n_images ≥ 2` and `max_iter ≥ 1`, `run_neb`
returns a result whose path has exactly `n_images` points, whose
iteration count is at most `max_iter`, and whose energies are exactly
the values of the potential on the final path (one exact rational per
image, hence finite).  The amendment adds `max_iter ≥ 1`: with
`max_iter = 0` the Python function raises NameError instead of
returning (see the counterexample). -/
theorem claim_C2_shape_amended (ops : Ops) (potential : Point → ℚ)
    (gradient : Point → Point) (start endp : Point) (n_images : ℕ)
    (k_spring step_size : ℚ) (max_iter : ℕ) (force_tolerance : ℚ)
    (hn : 2 ≤ n_images) (hM : 1 ≤ max_iter) :
    ∃ r : NEBResult,
      run_neb ops potential gradient start endp n_images k_spring step_size max_iter
          force_tolerance = some r ∧
      r.path.length = n_images ∧ r.iterations ≤ max_iter ∧
      r.energies = r.path.map potential ∧ r.energies.length = n_images := by
  have h1 : n_images ≠ 1 := by omega
  have h2 : max_iter ≠ 0 := by omega
  have hlen : (nebLoop ops gradient k_spring step_size force_tolerance
      (initImages start endp n_images) max_iter).1.length = n_images := by
    rw [nebLoop_length, initImages_length]
  refine ⟨{ path := (nebLoop ops gradient k_spring step_size force_tolerance
              (initImages start endp n_images) max_iter).1
            energies := ((nebLoop ops gradient k_spring step_size force_tolerance
              (initImages start endp n_images) max_iter).1).map potential
            gradients := ((nebLoop ops gradient k_spring step_size force_tolerance
              (initImages start endp n_images) max_iter).1).map gradient
            iterations := (nebLoop ops gradient k_spring step_size force_tolerance
              (initImages start endp n_images) max_iter).2.1
            max_force := (nebLoop ops gradient k_spring step_size force_tolerance
              (initImages start endp n_images) max_iter).2.2 },
          ?_, hlen, ?_, rfl, ?_⟩
  · simp [run_neb, h1, h2]
  · exact (nebLoop_count ops gradient k_spring step_size force_tolerance max_iter
      (initImages start endp n_images)).1
  · rw [List.length_map]
    exact hlen

/-- Counterexample to C2 as stated: the claim quantifies over every
`max_iter = M`, but at `M = 0` the Python `for` body never runs and the
final `iteration + 1` raises NameError, so no `NEBResult` is returned
at all (modelled as `none`). -/
theorem claim_C2_counterexample :
    run_neb opsDemo potDemo gradDemo ((0 : ℚ), (0 : ℚ)) ((1 : ℚ), (0 : ℚ)) 2 1 (1 / 50) 0 1
      = none ∧
    ¬ ∃ r : NEBResult,
        run_neb opsDemo potDemo gradDemo ((0 : ℚ), (0 : ℚ)) ((1 : ℚ), (0 : ℚ)) 2 1 (1 / 50) 0 1
          = some r := by
  refine ⟨rfl, ?_⟩
  rintro ⟨r, hr⟩
  simp [run_neb] at hr

/-- Witness for the amended C2 at a concrete input. -/
theorem claim_C2_witness :
    ∃ r : NEBResult,
      run_neb opsDemo potDemo gradDemo ((0 : ℚ), (0 : ℚ)) ((1 : ℚ), (0 : ℚ)) 2 1 (1 / 50) 3 1
          = some r ∧
      r.path.length = 2 ∧ r.iterations ≤ 3 ∧
      r.energies = r.path.map potDemo ∧ r.energies.length = 2 :=
  claim_C2_shape_amended opsDemo potDemo gradDemo (0, 0) (1, 0) 2 1 (1 / 50) 3 1
    (by decide) (by decide)

/-- C3: with `n_images ≥ 2` and `max_iter ≥ 1`, the first and last
images equal the supplied `start` and `end` points after
initialization, after every iteration (the position update never
touches index 0 or index `n_images - 1`), and in the returned
`NEBResult`. -/
theorem claim_C3_endpoints_pinned (ops : Ops) (potential : Point → ℚ)
    (gradient : Point → Point) (start endp : Point) (n_images : ℕ)
    (k_spring step_size : ℚ) (max_iter : ℕ) (force_tolerance : ℚ)
    (hn : 2 ≤ n_images) (hM : 1 ≤ max_iter) :
    (∀ images : List Point, 2 ≤ images.length →
      (updateImages ops gradient k_spring step_size images).getD 0 (0, 0)
          = images.getD 0 (0, 0) ∧
      (updateImages ops gradient k_spring step_size images).getD (images.length - 1) (0, 0)
          = images.getD (images.length - 1) (0, 0)) ∧
    (initImages start endp n_images).getD 0 (0, 0) = start ∧
    (initImages start endp n_images).getD (n_images - 1) (0, 0) = endp ∧
    (∀ r : NEBResult,
      run_neb ops potential gradient start endp n_images k_spring step_size max_iter
          force_tolerance = some r →
      r.path.length = n_images ∧ r.path.getD 0 (0, 0) = start ∧
      r.path.getD (n_images - 1) (0, 0) = endp) := by
  have h1 : n_images ≠ 1 := by omega
  have h2 : max_iter ≠ 0 := by omega
  refine ⟨?_, initImages_first start endp (by omega), initImages_last start endp hn, ?_⟩
  · intro images hlen
    exact ⟨updateImages_getD_first _ _ _ _ _ (by omega),
           updateImages_getD_last _ _ _ _ _ hlen⟩
  · intro r hr
    simp [run_neb, h1, h2] at hr
    have hinit : (initImages start endp n_images).length = n_images :=
      initImages_length start endp n_images
    have hend := nebLoop_endpoints ops gradient k_spring step_size force_tolerance
      max_iter (initImages start endp n_images) (by omega)
    have hlen : (nebLoop ops gradient k_spring step_size force_tolerance
        (initImages start endp n_images) max_iter).1.length = n_images := by
      rw [nebLoop_length, hinit]
    rw [← hr]
    refine ⟨hlen, ?_, ?_⟩
    · rw [hend.1, initImages_first start endp (by omega)]
    · rw [hinit] at hend
      rw [hend.2, initImages_last start endp hn]

/-- Witness for C3 at a concrete input. -/
theorem claim_C3_witness :
    (initImages ((0 : ℚ), (0 : ℚ)) ((1 : ℚ), (0 : ℚ)) 2).getD 0 (0, 0) = ((0 : ℚ), (0 : ℚ)) :=
  (claim_C3_endpoints_pinned opsDemo potDemo gradDemo (0, 0) (1, 0) 2 1 (1 / 50) 3 1
    (by decide) (by decide)).2.1

/-- C10: whenever `run_neb` (with `n_images ≥ 2`, `max_iter ≥ 1`)
returns, an iteration count strictly below `max_iter` can only arise
from force convergence, in which case the reported max force is
strictly below the tolerance; otherwise the count equals `max_iter`. -/
theorem claim_C10_early_return_only_by_convergence (ops : Ops) (potential : Point → ℚ)
    (gradient : Point → Point) (start endp : Point) (n_images : ℕ)
    (k_spring step_size : ℚ) (max_iter : ℕ) (force_tolerance : ℚ)
    (hn : 2 ≤ n_images) (hM : 1 ≤ max_iter) (r : NEBResult)
    (hr : run_neb ops potential gradient start endp n_images k_spring step_size max_iter
        force_tolerance = some r) :
    r.iterations ≤ max_iter ∧
    (r.iterations < max_iter → r.max_force < force_tolerance) ∧
    (¬ r.iterations < max_iter → r.iterations = max_iter) := by
  have h1 : n_images ≠ 1 := by omega
  have h2 : max_iter ≠ 0 := by omega
  simp [run_neb, h1, h2] at hr
  have hcount := nebLoop_count ops gradient k_spring step_size force_tolerance
    max_iter (initImages start endp n_images)
  have hit : r.iterations = (nebLoop ops gradient k_spring step_size force_tolerance
      (initImages start endp n_images) max_iter).2.1 := by rw [← hr]
  have hmf : r.max_force = (nebLoop ops gradient k_spring step_size force_tolerance
      (initImages start endp n_images) max_iter).2.2 := by rw [← hr]
  rw [hit, hmf]
  refine ⟨hcount.1, hcount.2, fun hnot => ?_⟩
  have hle := hcount.1
  omega

/-- Witness for C10 at a concrete input. -/
theorem claim_C10_witness : nebDemo.iterations ≤ 3 :=
  (claim_C10_early_return_only_by_convergence opsDemo potDemo gradDemo (0, 0) (1, 0) 2 1
    (1 / 50) 3 1 (by decide) (by decide) nebDemo rfl).1

theorem cellD_range_map (f : ℕ → ℕ → ℚ) {rows cols row col : ℕ}
    (hr : row < rows) (hc : col < cols) :
    cellD ((List.range rows).map (fun r => (List.range cols).map (fun c => f r c))) row col
      = f row col := by
  unfold cellD
  rw [getD_range_map _ _ hr, getD_range_map _ _ hc]

/-- C4: the grid-wide evaluators and the point evaluators agree cell by
cell — each accumulates the same feature terms in the same order from
the same starting value — and over an empty feature list both the
potential and the gradient are identically zero. -/
theorem claim_C4_grid_point_agreement (ops : Ops) (grid_x grid_y : List (List ℚ))
    (gaussians : List Gaussian) (row col : ℕ) (point : Point)
    (hr : row < grid_x.length) (hc : col < (grid_x.getD 0 []).length) :
    cellD (evaluate_potential ops grid_x grid_y gaussians) row col
        = evaluate_potential_at_point ops (cellD grid_x row col, cellD grid_y row col)
            gaussians ∧
    cellD (gradient_potential ops grid_x grid_y gaussians).1 row col
        = (evaluate_gradient_at_point ops (cellD grid_x row col, cellD grid_y row col)
            gaussians).1 ∧
    cellD (gradient_potential ops grid_x grid_y gaussians).2 row col
        = (evaluate_gradient_at_point ops (cellD grid_x row col, cellD grid_y row col)
            gaussians).2 ∧
    evaluate_potential_at_point ops point [] = 0 ∧
    evaluate_gradient_at_point ops point [] = (0, 0) ∧
    cellD (evaluate_potential ops grid_x grid_y []) row col = 0 := by
  refine ⟨?_, ?_, ?_, rfl, rfl, ?_⟩
  · exact cellD_range_map
      (fun r c => potCell ops (cellD grid_x r c) (cellD grid_y r c) gaussians) hr hc
  · exact cellD_range_map
      (fun r c => (gradCell ops (cellD grid_x r c) (cellD grid_y r c) gaussians).1) hr hc
  · exact cellD_range_map
      (fun r c => (gradCell ops (cellD grid_x r c) (cellD grid_y r c) gaussians).2) hr hc
  · exact cellD_range_map
      (fun r c => potCell ops (cellD grid_x r c) (cellD grid_y r c) []) hr hc

/-- Witness for C4 on a concrete grid and feature list. -/
theorem claim_C4_witness :
    cellD (evaluate_potential opsDemo gxDemo gyDemo gsDemo) 0 0
      = evaluate_potential_at_point opsDemo (cellD gxDemo 0 0, cellD gyDemo 0 0) gsDemo :=
  (claim_C4_grid_point_agreement opsDemo gxDemo gyDemo gsDemo 0 0 (0, 0)
    (by decide) (by decide)).1

theorem mem_cellIndices {rows cols : ℕ} {rc : ℕ × ℕ} :
    rc ∈ cellIndices rows cols ↔ rc.1 < rows ∧ rc.2 < cols := by
  obtain ⟨r, c⟩ := rc
  simp only [cellIndices, List.mem_flatten, List.mem_map, List.mem_range]
  constructor
  · rintro ⟨l, ⟨r2, hr2, rfl⟩, hmem⟩
    obtain ⟨c2, hc2, heq⟩ := List.mem_map.mp hmem
    obtain ⟨rfl, rfl⟩ := Prod.mk.injEq .. ▸ heq
    exact ⟨hr2, List.mem_range.mp hc2⟩
  · rintro ⟨hr, hc⟩
    exact ⟨(List.range cols).map (fun col => (r, col)), ⟨r, hr, rfl⟩,
      List.mem_map.mpr ⟨c, List.mem_range.mpr hc, rfl⟩⟩

theorem entryStep_not_in (grid_x grid_y potential : List (List ℚ)) (state : CircularState)
    (acc : Point × Option ℚ) (rc : ℕ × ℕ) (h : ¬ inCircle grid_x grid_y state rc) :
    entryStep grid_x grid_y potential state acc rc = acc := by
  have h2 : ¬ ((cellD grid_x rc.1 rc.2 - state.x0) ^ 2
      + (cellD grid_y rc.1 rc.2 - state.y0) ^ 2 ≤ state.radius ^ 2) := h
  simp [entryStep, h2]

theorem entryStep_in_none (grid_x grid_y potential : List (List ℚ)) (state : CircularState)
    (acc : Point × Option ℚ) (rc : ℕ × ℕ) (h : inCircle grid_x grid_y state rc)
    (hacc : acc.2 = none) :
    entryStep grid_x grid_y potential state acc rc
      = ((cellD grid_x rc.1 rc.2, cellD grid_y rc.1 rc.2),
         some (cellD potential rc.1 rc.2)) := by
  have h2 : (cellD grid_x rc.1 rc.2 - state.x0) ^ 2
      + (cellD grid_y rc.1 rc.2 - state.y0) ^ 2 ≤ state.radius ^ 2 := h
  simp [entryStep, h2, hacc]

theorem entryStep_in_some_lt (grid_x grid_y potential : List (List ℚ))
    (state : CircularState) (acc : Point × Option ℚ) (rc : ℕ × ℕ) (best : ℚ)
    (h : inCircle grid_x grid_y state rc) (hacc : acc.2 = some best)
    (hlt : cellD potential rc.1 rc.2 < best) :
    entryStep grid_x grid_y potential state acc rc
      = ((cellD grid_x rc.1 rc.2, cellD grid_y rc.1 rc.2),
         some (cellD potential rc.1 rc.2)) := by
  have h2 : (cellD grid_x rc.1 rc.2 - state.x0) ^ 2
      + (cellD grid_y rc.1 rc.2 - state.y0) ^ 2 ≤ state.radius ^ 2 := h
  simp [entryStep, h2, hacc, hlt]

theorem entryStep_in_some_ge (grid_x grid_y potential : List (List ℚ))
    (state : CircularState) (acc : Point × Option ℚ) (rc : ℕ × ℕ) (best : ℚ)
    (h : inCircle grid_x grid_y state rc) (hacc : acc.2 = some best)
    (hge : ¬ cellD potential rc.1 rc.2 < best) :
    entryStep grid_x grid_y potential state acc rc = acc := by
  have h2 : (cellD grid_x rc.1 rc.2 - state.x0) ^ 2
      + (cellD grid_y rc.1 rc.2 - state.y0) ^ 2 ≤ state.radius ^ 2 := h
  simp [entryStep, h2, hacc, hge]

theorem entry_fold (grid_x grid_y potential : List (List ℚ)) (state : CircularState) :
    ∀ (L : List (ℕ × ℕ)) (acc : Point × Option ℚ),
      (L.foldl (entryStep grid_x grid_y potential state) acc = acc ∧
        ∀ rc ∈ L, inCircle grid_x grid_y state rc →
          ∃ e0, acc.2 = some e0 ∧ e0 ≤ cellD potential rc.1 rc.2) ∨
      (∃ rc, rc ∈ L ∧ inCircle grid_x grid_y state rc ∧
        (L.foldl (entryStep grid_x grid_y potential state) acc).1
          = (cellD grid_x rc.1 rc.2, cellD grid_y rc.1 rc.2) ∧
        (L.foldl (entryStep grid_x grid_y potential state) acc).2
          = some (cellD potential rc.1 rc.2) ∧
        (∀ rc2 ∈ L, inCircle grid_x grid_y state rc2 →
          cellD potential rc.1 rc.2 ≤ cellD potential rc2.1 rc2.2) ∧
        (∀ e0, acc.2 = some e0 → cellD potential rc.1 rc.2 < e0)) := by
  intro L
  induction L with
  | nil =>
    intro acc
    left
    exact ⟨rfl, by simp⟩
  | cons rc0 rest ih =>
    intro acc
    rw [List.foldl_cons]
    by_cases hin : inCircle grid_x grid_y state rc0
    · cases hacc : acc.2 with
      | none =>
        rw [entryStep_in_none grid_x grid_y potential state acc rc0 hin hacc]
        rcases ih ((cellD grid_x rc0.1 rc0.2, cellD grid_y rc0.1 rc0.2),
            some (cellD potential rc0.1 rc0.2)) with
          ⟨heq, hall⟩ | ⟨rc, hmem, hinc, h1, h2a, hmin, hlt⟩
        · right
          refine ⟨rc0, List.mem_cons_self rc0 rest, hin, ?_, ?_, ?_, ?_⟩
          · rw [heq]
          · rw [heq]
          · intro rc2 hrc2 hinc2
            rcases List.mem_cons.mp hrc2 with rfl | hrest
            · exact le_refl _
            · obtain ⟨e0, he0, hle⟩ := hall rc2 hrest hinc2
              have he : cellD potential rc0.1 rc0.2 = e0 := Option.some.inj he0
              exact he ▸ hle
          · intro e0 he0
            exact Option.noConfusion he0
        · right
          refine ⟨rc, List.mem_cons_of_mem rc0 hmem, hinc, h1, h2a, ?_, ?_⟩
          · intro rc2 hrc2 hinc2
            rcases List.mem_cons.mp hrc2 with rfl | hrest
            · exact le_of_lt (hlt _ rfl)
            · exact hmin rc2 hrest hinc2
          · intro e0 he0
            exact Option.noConfusion he0
      | some best =>
        by_cases hlt0 : cellD potential rc0.1 rc0.2 < best
        · rw [entryStep_in_some_lt grid_x grid_y potential state acc rc0 best hin hacc hlt0]
          rcases ih ((cellD grid_x rc0.1 rc0.2, cellD grid_y rc0.1 rc0.2),
              some (cellD potential rc0.1 rc0.2)) with
            ⟨heq, hall⟩ | ⟨rc, hmem, hinc, h1, h2a, hmin, hlt⟩
          · right
            refine ⟨rc0, List.mem_cons_self rc0 rest, hin, ?_, ?_, ?_, ?_⟩
            · rw [heq]
            · rw [heq]
            · intro rc2 hrc2 hinc2
              rcases List.mem_cons.mp hrc2 with rfl | hrest
              · exact le_refl _
              · obtain ⟨e0, he0, hle⟩ := hall rc2 hrest hinc2
                have he : cellD potential rc0.1 rc0.2 = e0 := Option.some.inj he0
                exact he ▸ hle
            · intro e0 he0
              have hb : best = e0 := Option.some.inj he0
              exact hb ▸ hlt0
          · right
            refine ⟨rc, List.mem_cons_of_mem rc0 hmem, hinc, h1, h2a, ?_, ?_⟩
            · intro rc2 hrc2 hinc2
              rcases List.mem_cons.mp hrc2 with rfl | hrest
              · exact le_of_lt (hlt _ rfl)
              · exact hmin rc2 hrest hinc2
            · intro e0 he0
              have hb : best = e0 := Option.some.inj he0
              exact hb ▸ lt_trans (hlt _ rfl) hlt0
        · rw [entryStep_in_some_ge grid_x grid_y potential state acc rc0 best hin hacc hlt0]
          rcases ih acc with ⟨heq, hall⟩ | ⟨rc, hmem, hinc, h1, h2a, hmin, hlt⟩
          · left
            refine ⟨heq, ?_⟩
            intro rc2 hrc2 hinc2
            rcases List.mem_cons.mp hrc2 with rfl | hrest
            · exact ⟨best, rfl, not_lt.mp hlt0⟩
            · exact hacc ▸ hall rc2 hrest hinc2
          · right
            refine ⟨rc, List.mem_cons_of_mem rc0 hmem, hinc, h1, h2a, ?_, hacc ▸ hlt⟩
            intro rc2 hrc2 hinc2
            rcases List.mem_cons.mp hrc2 with rfl | hrest
            · exact le_of_lt (lt_of_lt_of_le (hlt best hacc) (not_lt.mp hlt0))
            · exact hmin rc2 hrest hinc2
    · rw [entryStep_not_in grid_x grid_y potential state acc rc0 hin]
      rcases ih acc with ⟨heq, hall⟩ | ⟨rc, hmem, hinc, h1, h2a, hmin, hlt⟩
      · left
        refine ⟨heq, ?_⟩
        intro rc2 hrc2 hinc2
        rcases List.mem_cons.mp hrc2 with rfl | hrest
        · exact absurd hinc2 hin
        · exact hall rc2 hrest hinc2
      · right
        refine ⟨rc, List.mem_cons_of_mem rc0 hmem, hinc, h1, h2a, ?_, hlt⟩
        intro rc2 hrc2 hinc2
        rcases List.mem_cons.mp hrc2 with rfl | hrest
        · exact absurd hinc2 hin
        · exact hmin rc2 hrest hinc2

/-- C8: `_state_entry_point` returns the in-circle grid cell of lowest
potential, and falls back to the state's nominal center when no grid
cell lies inside the circular region. -/
theorem claim_C8_entry_point_resolution (grid_x grid_y potential : List (List ℚ))
    (state : CircularState) :
    ((∀ r : ℕ, r < grid_x.length → ∀ c : ℕ, c < (grid_x.getD 0 []).length →
        ¬ inCircle grid_x grid_y state (r, c)) →
      state_entry_point grid_x grid_y potential state = (state.x0, state.y0)) ∧
    ((∃ r : ℕ, r < grid_x.length ∧ ∃ c : ℕ, c < (grid_x.getD 0 []).length ∧
        inCircle grid_x grid_y state (r, c)) →
      ∃ r : ℕ, r < grid_x.length ∧ ∃ c : ℕ, c < (grid_x.getD 0 []).length ∧
        inCircle grid_x grid_y state (r, c) ∧
        state_entry_point grid_x grid_y potential state = (cellD grid_x r c, cellD grid_y r c) ∧
        ∀ r2 : ℕ, r2 < grid_x.length → ∀ c2 : ℕ, c2 < (grid_x.getD 0 []).length →
          inCircle grid_x grid_y state (r2, c2) →
          cellD potential r c ≤ cellD potential r2 c2) := by
  have hfold := entry_fold grid_x grid_y potential state
    (cellIndices grid_x.length (grid_x.getD 0 []).length) ((state.x0, state.y0), none)
  constructor
  · intro hnone
    rcases hfold with ⟨heq, _⟩ | ⟨rc, hmem, hinc, _⟩
    · show ((cellIndices grid_x.length (grid_x.getD 0 []).length).foldl
        (entryStep grid_x grid_y potential state) ((state.x0, state.y0), none)).1
          = (state.x0, state.y0)
      rw [heq]
    · have hb := mem_cellIndices.mp hmem
      exact absurd hinc (hnone rc.1 hb.1 rc.2 hb.2)
  · rintro ⟨r1, hr1, c1, hc1, hin1⟩
    rcases hfold with ⟨_, hall⟩ | ⟨rc, hmem, hinc, h1, _, hmin, _⟩
    · obtain ⟨e0, he0, _⟩ := hall (r1, c1) (mem_cellIndices.mpr ⟨hr1, hc1⟩) hin1
      exact absurd he0 (by simp)
    · have hb := mem_cellIndices.mp hmem
      refine ⟨rc.1, hb.1, rc.2, hb.2, hinc, ?_, ?_⟩
      · show ((cellIndices grid_x.length (grid_x.getD 0 []).length).foldl
          (entryStep grid_x grid_y potential state) ((state.x0, state.y0), none)).1
            = (cellD grid_x rc.1 rc.2, cellD grid_y rc.1 rc.2)
        exact h1
      · intro r2 hr2 c2 hc2 hinc2
        exact hmin (r2, c2) (mem_cellIndices.mpr ⟨hr2, hc2⟩) hinc2

/-- Witness for C8: with no grid cell inside the circle, the nominal
center is returned. -/
theorem claim_C8_witness :
    state_entry_point gxDemo gyDemo pvDemo stFarDemo = (100, 100) :=
  (claim_C8_entry_point_resolution gxDemo gyDemo pvDemo stFarDemo).1 (by
    intro r hr c hc
    have hr2 : r < 2 := hr
    have hc2 : c < 2 := hc
    interval_cases r <;> interval_cases c <;>
      norm_num [inCircle, cellD, gxDemo, gyDemo, stFarDemo])

/-- C5: the computation is deterministic and reproducible.  The
generator state that the calling process carries (`ambient`) is never
consulted, because `umbrella_sampling` seeds its own generator with the
fixed constant 42 on every call; hence two invocations of
`compute_visualisation` (equivalently of `umbrella_sampling`) on equal
input configurations produce identical results, whatever generator
states the two calls happen to start from. -/
theorem claim_C5_deterministic_fixed_seed (ops : Ops) (R : RNG) (a1 a2 : R.State)
    (p1 p2 : Payload) (potential : Point → ℚ) (path : List Point)
    (beta spring_constant window_half_width : ℚ) (samples_per_window : ℕ)
    (hp : p1 = p2) :
    compute_visualisation ops R a1 p1 = compute_visualisation ops R a2 p2 ∧
    umbrella_sampling ops R a1 potential path beta spring_constant window_half_width
        samples_per_window
      = umbrella_sampling ops R a2 potential path beta spring_constant window_half_width
          samples_per_window := by
  subst hp
  exact ⟨rfl, rfl⟩

/-- Witness for C5: the same payload computed from two different
ambient generator states. -/
theorem claim_C5_witness :
    compute_visualisation opsDemo rngDemo (rngDemoState 0) payloadDemo
      = compute_visualisation opsDemo rngDemo (rngDemoState 1) payloadDemo :=
  (claim_C5_deterministic_fixed_seed opsDemo rngDemo (rngDemoState 0) (rngDemoState 1)
    payloadDemo payloadDemo potDemo pathDemo 1 5 (1 / 2) 1 rfl).1

theorem windowsFrom_rc (ops : Ops) (R : RNG) (potential : Point → ℚ) (path : List Point)
    (beta spring_constant window_half_width : ℚ) (samples_per_window : ℕ) :
    ∀ (L : List ℕ) (st : R.State) (ws : List UmbrellaWindow),
      windowsFrom ops R potential path beta spring_constant window_half_width
          samples_per_window L st = some ws →
      ws.map (fun w => w.reaction_coordinate)
        = L.map (fun (i : ℕ) =>
            if 1 < path.length then (i : ℚ) / ((path.length : ℚ) - 1) else 0) := by
  intro L
  induction L with
  | nil =>
    intro st ws h
    simp only [windowsFrom, Option.some.injEq] at h
    rw [← h]
    simp
  | cons idx rest ih =>
    intro st ws h
    rw [windowsFrom] at h
    split at h
    · exact absurd h (by simp)
    · split at h
      · exact absurd h (by simp)
      · rename_i tangent htan ws2 hrec
        obtain rfl := Option.some.inj h
        simp only [List.map_cons]
        rw [ih _ _ hrec]
        rfl

/-- C6: the reaction coordinate of window `i` is `i / (N - 1)` and the
coordinates of the `N` windows are evenly spaced from 0 to 1 inclusive
whenever the path has at least two images; but for a single-image path
the source raises IndexError inside `_estimate_tangent` (it reads
`path[1]`), so the documented `0.0` single-image fallback is never
reached (modelled as `none`). -/
theorem claim_C6_reaction_coordinates (ops : Ops) (R : RNG) (ambient : R.State)
    (potential : Point → ℚ) (beta spring_constant window_half_width : ℚ)
    (samples_per_window : ℕ) (path : List Point) (p0 : Point) :
    umbrella_sampling ops R ambient potential [p0] beta spring_constant window_half_width
        samples_per_window = none ∧
    (2 ≤ path.length →
      ∀ ws, umbrella_sampling ops R ambient potential path beta spring_constant
          window_half_width samples_per_window = some ws →
        ws.map (fun w => w.reaction_coordinate)
          = (List.range path.length).map
              (fun (i : ℕ) => (i : ℚ) / ((path.length : ℚ) - 1))) := by
  constructor
  · rfl
  · intro h2 ws h
    have hmap := windowsFrom_rc ops R potential path beta spring_constant window_half_width
      samples_per_window (List.range path.length) (R.init 42) ws h
    rw [hmap]
    have h1 : 1 < path.length := h2
    simp [h1]

/-- Witness for C6 on the concrete two-image path. -/
theorem claim_C6_witness :
    wsDemo.map (fun w => w.reaction_coordinate)
      = (List.range pathDemo.length).map
          (fun (i : ℕ) => (i : ℚ) / ((pathDemo.length : ℚ) - 1)) :=
  (claim_C6_reaction_coordinates opsDemo rngDemo (rngDemoState 0) potDemo 1 5 (1 / 2) 1
    pathDemo (0, 0)).2 (by decide) wsDemo rfl

theorem sampleMany_weights (ops : Ops) (R : RNG) (potential : Point → ℚ)
    (point tangent perp : Point) (beta spring_constant window_half_width : ℚ) :
    ∀ (n : ℕ) (st : R.State),
      (sampleMany ops R potential point tangent perp beta spring_constant
          window_half_width n st).2.1
        = (sampleMany ops R potential point tangent perp beta spring_constant
            window_half_width n st).1.map
            (fun s => ops.exp (-(beta * (s.potential + s.bias)))) := by
  intro n
  induction n with
  | zero => intro st; rfl
  | succ m ih =>
    intro st
    simp only [sampleMany]
    rw [List.map_cons, ← ih]
    rfl

theorem mkWindow_free_energy (ops : Ops) (R : RNG) (potential : Point → ℚ)
    (path : List Point) (beta spring_constant window_half_width : ℚ)
    (samples_per_window : ℕ) (idx : ℕ) (tangent : Point) (st : R.State) :
    ∃ energies : List ℚ,
      (mkWindow ops R potential path beta spring_constant window_half_width
          samples_per_window idx tangent st).1.free_energy
        = windowFreeEnergy ops beta
            ((mkWindow ops R potential path beta spring_constant window_half_width
                samples_per_window idx tangent st).1.samples.map
              (fun s => ops.exp (-(beta * (s.potential + s.bias)))))
            energies := by
  refine ⟨(sampleMany ops R potential (path.getD idx (0, 0)) tangent
      (if ops.hypot (-tangent.2) tangent.1 = 0 then ((0 : ℚ), (1 : ℚ))
       else (-tangent.2 / ops.hypot (-tangent.2) tangent.1,
             tangent.1 / ops.hypot (-tangent.2) tangent.1))
      beta spring_constant window_half_width samples_per_window st).2.2.1, ?_⟩
  show windowFreeEnergy ops beta
      (sampleMany ops R potential (path.getD idx (0, 0)) tangent
        (if ops.hypot (-tangent.2) tangent.1 = 0 then ((0 : ℚ), (1 : ℚ))
         else (-tangent.2 / ops.hypot (-tangent.2) tangent.1,
               tangent.1 / ops.hypot (-tangent.2) tangent.1))
        beta spring_constant window_half_width samples_per_window st).2.1
      (sampleMany ops R potential (path.getD idx (0, 0)) tangent
        (if ops.hypot (-tangent.2) tangent.1 = 0 then ((0 : ℚ), (1 : ℚ))
         else (-tangent.2 / ops.hypot (-tangent.2) tangent.1,
               tangent.1 / ops.hypot (-tangent.2) tangent.1))
        beta spring_constant window_half_width samples_per_window st).2.2.1
    = windowFreeEnergy ops beta
        ((sampleMany ops R potential (path.getD idx (0, 0)) tangent
          (if ops.hypot (-tangent.2) tangent.1 = 0 then ((0 : ℚ), (1 : ℚ))
           else (-tangent.2 / ops.hypot (-tangent.2) tangent.1,
                 tangent.1 / ops.hypot (-tangent.2) tangent.1))
          beta spring_constant window_half_width samples_per_window st).1.map
          (fun s => ops.exp (-(beta * (s.potential + s.bias)))))
        (sampleMany ops R potential (path.getD idx (0, 0)) tangent
          (if ops.hypot (-tangent.2) tangent.1 = 0 then ((0 : ℚ), (1 : ℚ))
           else (-tangent.2 / ops.hypot (-tangent.2) tangent.1,
                 tangent.1 / ops.hypot (-tangent.2) tangent.1))
          beta spring_constant window_half_width samples_per_window st).2.2.1
  rw [sampleMany_weights]

theorem windowsFrom_free_energy (ops : Ops) (R : RNG) (potential : Point → ℚ)
    (path : List Point) (beta spring_constant window_half_width : ℚ)
    (samples_per_window : ℕ) :
    ∀ (L : List ℕ) (st : R.State) (ws : List UmbrellaWindow),
      windowsFrom ops R potential path beta spring_constant window_half_width
          samples_per_window L st = some ws →
      ∀ w ∈ ws, ∃ energies : List ℚ,
        w.free_energy = windowFreeEnergy ops beta
          (w.samples.map (fun s => ops.exp (-(beta * (s.potential + s.bias)))))
          energies := by
  intro L
  induction L with
  | nil =>
    intro st ws h
    simp only [windowsFrom, Option.some.injEq] at h
    intro w hw
    rw [← h] at hw
    exact absurd hw (List.not_mem_nil w)
  | cons idx rest ih =>
    intro st ws h
    rw [windowsFrom] at h
    split at h
    · exact absurd h (by simp)
    · split at h
      · exact absurd h (by simp)
      · rename_i oscr tangent htan wscr ws2 hrec
        obtain rfl := Option.some.inj h
        intro w hw
        rcases List.mem_cons.mp hw with rfl | hmem
        · exact mkWindow_free_energy ops R potential path beta spring_constant
            window_half_width samples_per_window idx tangent st
        · exact ih _ _ hrec w hmem

/-- C7: a window's reported free energy is not-a-number (`none`)
exactly when its partition function — the sum of the window's sample
weights, each `exp(-beta * (potential + bias))` — is zero; whenever the
partition function is nonzero the free energy is an actual rational
value (hence finite), with no error raised in either case. -/
theorem claim_C7_free_energy_vs_partition (ops : Ops) (R : RNG) (ambient : R.State)
    (potential : Point → ℚ) (path : List Point)
    (beta spring_constant window_half_width : ℚ) (samples_per_window : ℕ)
    (ws : List UmbrellaWindow)
    (h : umbrella_sampling ops R ambient potential path beta spring_constant
        window_half_width samples_per_window = some ws) :
    ∀ w ∈ ws,
      (partitionOf ops beta w = 0 → w.free_energy = none) ∧
      (partitionOf ops beta w ≠ 0 → ∃ fe : ℚ, w.free_energy = some fe) := by
  intro w hw
  obtain ⟨energies, hfe⟩ := windowsFrom_free_energy ops R potential path beta
    spring_constant window_half_width samples_per_window (List.range path.length)
    (R.init 42) ws h w hw
  rw [hfe]
  constructor
  · intro hz
    have hz2 : (w.samples.map (fun s => ops.exp (-(beta * (s.potential + s.bias))))).sum
        = 0 := hz
    simp [windowFreeEnergy, hz2]
  · intro hnz
    have hnz2 : ¬ (w.samples.map (fun s => ops.exp (-(beta * (s.potential + s.bias))))).sum
        = 0 := hnz
    simp [windowFreeEnergy, hnz2]

theorem getD_mem_of_pos {A : Type} (l : List A) (d : A) (h : 0 < l.length) :
    l.getD 0 d ∈ l := by
  rw [List.getD_eq_getElem?_getD, List.getElem?_eq_getElem h]
  simp

/-- Witness for C7: the first demo window has nonzero partition
function and a defined free energy. -/
theorem claim_C7_witness :
    ∃ fe : ℚ, (wsDemo.getD 0 windowDemo).free_energy = some fe :=
  ((claim_C7_free_energy_vs_partition opsDemo rngDemo (rngDemoState 0) potDemo pathDemo
    1 5 (1 / 2) 1 wsDemo rfl (wsDemo.getD 0 windowDemo)
    (getD_mem_of_pos wsDemo windowDemo (by
      have hlen : wsDemo.length = 2 := rfl
      omega))).2 (by
      have hp : partitionOf opsDemo 1 (wsDemo.getD 0 windowDemo) = 1 + 0 := rfl
      rw [hp]
      norm_num))

theorem from_mapping_grid_error (m : Option GridMapping) :
    (∃ e, GridSpec.from_mapping m = Except.error e) ↔
      ∃ gm, m = some gm ∧ gm.maximum.getD 4 ≤ gm.minimum.getD (-4) := by
  cases m with
  | none => simp [GridSpec.from_mapping]
  | some gm =>
    by_cases h : gm.maximum.getD 4 ≤ gm.minimum.getD (-4) <;>
      simp [GridSpec.from_mapping, h]

theorem from_mapping_grid_ok (m : Option GridMapping) (g : GridSpec)
    (h : GridSpec.from_mapping m = Except.ok g) :
    g.minimum < g.maximum ∧ 10 ≤ g.resolution := by
  cases m with
  | none =>
    simp only [GridSpec.from_mapping, Except.ok.injEq] at h
    rw [← h]
    norm_num
  | some gm =>
    by_cases hc : gm.maximum.getD 4 ≤ gm.minimum.getD (-4)
    · simp [GridSpec.from_mapping, hc] at h
    · simp only [GridSpec.from_mapping, hc, if_false, Except.ok.injEq] at h
      rw [← h]
      exact ⟨not_le.mp hc, le_max_right _ _⟩

theorem from_mapping_state_error (m : StateMapping) :
    (∃ e, CircularState.from_mapping m = Except.error e) ↔ m.radius.getD 1 ≤ 0 := by
  by_cases h : m.radius.getD 1 ≤ 0 <;> simp [CircularState.from_mapping, h]

theorem from_mapping_state_ok (m : StateMapping) (s : CircularState)
    (h : CircularState.from_mapping m = Except.ok s) : 0 < s.radius := by
  by_cases hc : m.radius.getD 1 ≤ 0
  · simp [CircularState.from_mapping, hc] at h
  · simp only [CircularState.from_mapping, hc, if_false, Except.ok.injEq] at h
    rw [← h]
    exact not_le.mp hc

theorem from_mapping_gaussian_sigma (m : GaussianMapping) :
    0 < (Gaussian.from_mapping m).sigma := by
  have h : (0 : ℚ) < 1 / 1000000 := by norm_num
  exact lt_of_lt_of_le h (le_max_right _ _)

/-- C9: `parse_configuration` fails exactly when the (resolved) radius
of one of the two states is non-positive or the supplied grid mapping
has maximum at most minimum; every accepted configuration satisfies the
invariants `minimum < maximum`, `resolution ≥ 10`, state radii
positive and every Gaussian sigma positive; and a parse error
propagates through `compute_visualisation` unchanged, before any grid,
path or sampling work, with no partial result. -/
theorem claim_C9_parse_validation (ops : Ops) (R : RNG) (ambient : R.State) (p : Payload) :
    ((∃ e, parse_configuration p = Except.error e) ↔
      ((∃ gm, p.grid = some gm ∧ gm.maximum.getD 4 ≤ gm.minimum.getD (-4)) ∨
       (p.stateA.getD emptyStateMapping).radius.getD 1 ≤ 0 ∨
       (p.stateB.getD emptyStateMapping).radius.getD 1 ≤ 0)) ∧
    (∀ grid gaussians state_a state_b,
      parse_configuration p = Except.ok (grid, gaussians, state_a, state_b) →
      grid.minimum < grid.maximum ∧ 10 ≤ grid.resolution ∧
      0 < state_a.radius ∧ 0 < state_b.radius ∧
      ∀ g ∈ gaussians, 0 < g.sigma) ∧
    (∀ e, parse_configuration p = Except.error e →
      compute_visualisation ops R ambient p = Except.error e) := by
  refine ⟨?_, ?_, ?_⟩
  · cases hg : GridSpec.from_mapping p.grid with
    | error e =>
      constructor
      · intro _
        exact Or.inl (from_mapping_grid_error p.grid |>.mp ⟨e, hg⟩)
      · intro _
        exact ⟨e, by simp [parse_configuration, hg]⟩
    | ok g =>
      cases hA : CircularState.from_mapping (p.stateA.getD emptyStateMapping) with
      | error e =>
        constructor
        · intro _
          exact Or.inr (Or.inl ((from_mapping_state_error _).mp ⟨e, hA⟩))
        · intro _
          exact ⟨e, by simp [parse_configuration, hg, hA]⟩
      | ok sA =>
        cases hB : CircularState.from_mapping (p.stateB.getD emptyStateMapping) with
        | error e =>
          constructor
          · intro _
            exact Or.inr (Or.inr ((from_mapping_state_error _).mp ⟨e, hB⟩))
          · intro _
            exact ⟨e, by simp [parse_configuration, hg, hA, hB]⟩
        | ok sB =>
          constructor
          · rintro ⟨e, he⟩
            simp [parse_configuration, hg, hA, hB] at he
          · rintro (hgrid | hA2 | hB2)
            · obtain ⟨e, he⟩ := (from_mapping_grid_error p.grid).mpr hgrid
              rw [he] at hg
              exact absurd hg (by simp)
            · obtain ⟨e, he⟩ := (from_mapping_state_error _).mpr hA2
              rw [he] at hA
              exact absurd hA (by simp)
            · obtain ⟨e, he⟩ := (from_mapping_state_error _).mpr hB2
              rw [he] at hB
              exact absurd hB (by simp)
  · intro grid gaussians state_a state_b hok
    cases hg : GridSpec.from_mapping p.grid with
    | error e => simp [parse_configuration, hg] at hok
    | ok g =>
      cases hA : CircularState.from_mapping (p.stateA.getD emptyStateMapping) with
      | error e => simp [parse_configuration, hg, hA] at hok
      | ok sA =>
        cases hB : CircularState.from_mapping (p.stateB.getD emptyStateMapping) with
        | error e => simp [parse_configuration, hg, hA, hB] at hok
        | ok sB =>
          simp only [parse_configuration, hg, hA, hB, Except.ok.injEq, Prod.mk.injEq] at hok
          obtain ⟨h1, h2, h3, h4⟩ := hok
          rw [← h1, ← h3, ← h4]
          refine ⟨(from_mapping_grid_ok _ _ hg).1, (from_mapping_grid_ok _ _ hg).2,
                  from_mapping_state_ok _ _ hA, from_mapping_state_ok _ _ hB, ?_⟩
          intro gau hmem
          rw [← h2] at hmem
          by_cases hemp : p.gaussians.isEmpty
      <;> simp only [hemp, if_true, if_false] at hmem
          all_goals
            obtain ⟨gm, _, rfl⟩ := List.mem_map.mp hmem
          all_goals exact from_mapping_gaussian_sigma gm
  · intro e he
    simp [compute_visualisation, he]

/-- Witness for C9: a payload with a non-positive state radius is
rejected at parse time. -/
theorem claim_C9_witness :
    ∃ e, parse_configuration payloadBad = Except.error e :=
  ((claim_C9_parse_validation opsDemo rngDemo (rngDemoState 0) payloadBad).1).mpr
    (Or.inr (Or.inl (show (-1 : ℚ) ≤ 0 by norm_num)))
